import Mathlib

/-!
Verification of the token-bucket rate limiter of `go-module-helper`
(`src/middleware/rate_limiter.go` and `src/helper/response.go`).

Modelling conventions:
* Go `time.Time` values and `time.Duration` values are `Int`, counted in
  nanoseconds (`time.Duration` is an `int64` nanosecond count, and within a
  process `time.Now()` differences use the monotonic reading, so subtraction
  behaves like plain integer subtraction).
* Go `int` token counters are `Int`.
* Go integer division truncates toward zero, which is `Int.tdiv`.
* `Allow` mutates the limiter through a pointer; here it returns the new
  limiter state together with its boolean result.  The registry write-back
  that Go performs implicitly through pointer sharing is made explicit where the
  middleware handler is modelled.
* `GetLimiter`, `Allow` and the cleanup body each hold a mutex for their whole
  duration, so every concurrent execution is an interleaving of atomic calls;
  the model therefore treats each call as one atomic step on the shared state.
-/

namespace GoModuleHelper

/-- State of one token bucket (`RateLimiter` in `rate_limiter.go`):
`tokens` is the current balance, `maxTokens` the capacity, `refillRate` the
duration each token costs, `lastRefillTime` the time of the last refill. -/
structure RateLimiter where
  tokens : Int
  maxTokens : Int
  refillRate : Int
  lastRefillTime : Int
deriving Repr, DecidableEq

/-- The refill phase of `RateLimiter.Allow`: compute
`tokensToAdd = int(elapsed / refillRate)`; when positive, add it, cap at
`maxTokens`, and advance `lastRefillTime` to `now`. -/
def RateLimiter.refill (r : RateLimiter) (now : Int) : RateLimiter :=
  let elapsed := now - r.lastRefillTime
  let tokensToAdd := Int.tdiv elapsed r.refillRate
  if tokensToAdd > 0 then
    let t := r.tokens + tokensToAdd
    { r with tokens := if t > r.maxTokens then r.maxTokens else t
           , lastRefillTime := now }
  else
    r

/-- Method `RateLimiter.Allow`: refill lazily from the elapsed time, then consume one
token when the balance is positive.  Returns the boolean result together with
the updated limiter state. -/
def RateLimiter.Allow (r : RateLimiter) (now : Int) : Bool × RateLimiter :=
  let r' := r.refill now
  if r'.tokens > 0 then
    (true, { r' with tokens := r'.tokens - 1 })
  else
    (false, r')

/-- The registry (`RateLimiterStore`): a map from client key to its limiter,
modelled as an association list (Go only inserts a key when it is absent, so
`List.lookup` matches the map semantics). -/
structure RateLimiterStore where
  limiters : List (String × RateLimiter)
deriving Repr, DecidableEq

/-- Method `GetLimiter`: return the stored limiter when the key exists; otherwise
create a limiter at full capacity with `lastRefillTime = now` and register it.
The store mutex is held for the whole body, so the check and the insertion are
one atomic step. -/
def RateLimiterStore.GetLimiter (s : RateLimiterStore) (clientID : String)
    (maxTokens : Int) (refillRate : Int) (now : Int) :
    RateLimiter × RateLimiterStore :=
  match s.limiters.lookup clientID with
  | some limiter => (limiter, s)
  | none =>
    let limiter : RateLimiter :=
      { tokens := maxTokens
      , maxTokens := maxTokens
      , refillRate := refillRate
      , lastRefillTime := now }
    (limiter, { limiters := (clientID, limiter) :: s.limiters })

/-- Idle-eviction threshold of the cleanup sweep: 30 minutes, in nanoseconds. -/
def idleThreshold : Int := 30 * 60 * 1000000000

/-- One sweep of the `cleanup` goroutine body: delete every entry whose
`lastRefillTime` is more than 30 minutes before `now`. -/
def RateLimiterStore.cleanup (s : RateLimiterStore) (now : Int) :
    RateLimiterStore :=
  { limiters := s.limiters.filter
      (fun kl => !(now - kl.2.lastRefillTime > idleThreshold : Bool)) }

/-- Error payload of `helper.Response` (`ErrorInfo` in `response.go`). -/
structure ErrorInfo where
  code : String
  message : String
  details : String
deriving Repr, DecidableEq

/-- Structure `helper.Response`: the JSON body sent by the response helpers.  The `Data`
field is never set on the error path; it is modelled as an optional string. -/
structure Response where
  success : Bool
  data : Option String
  error : Option ErrorInfo
deriving Repr, DecidableEq

/-- Function `helper.ErrorResponse`: the status code and JSON body written by
`c.JSON(statusCode, Response{Success: false, Error: &ErrorInfo{...}})`. -/
def ErrorResponse (statusCode : Nat) (code : String) (message : String) :
    Nat × Response :=
  (statusCode,
    { success := false
    , data := none
    , error := some { code := code, message := message, details := "" } })

/-- The observable outcome of one middleware handler invocation: either the
pipeline is aborted with a status code and a JSON body, or control passes to
the next stage (`c.Next()`). -/
inductive HandlerOutcome where
  | abortWith (status : Nat) (body : Response)
  | next
deriving Repr, DecidableEq

/-- Configuration computed by `RateLimitMiddleware` (and its variants) at
construction: it derives `refillRate := window / time.Duration(maxRequests)`.
Go integer division by zero panics, modelled as `none`; no other validation of
`maxRequests` is performed. -/
def rateLimitMiddlewareConfig (maxRequests : Int) (window : Int) :
    Option (Int × Int) :=
  if maxRequests = 0 then none
  else some (maxRequests, Int.tdiv window maxRequests)

/-- Write-back of the in-place mutation `Allow` performs through the shared
pointer: replace the limiter stored under `clientID`. -/
def RateLimiterStore.setLimiter (s : RateLimiterStore) (clientID : String)
    (l : RateLimiter) : RateLimiterStore :=
  { limiters := s.limiters.map (fun kl => if kl.1 = clientID then (clientID, l) else kl) }

/-- The per-request body of the handler returned by `RateLimitMiddleware`:
look up or create the limiter for the client, call `Allow`, and on `false`
send the 429 error response and abort; on `true` pass to the next stage. -/
def rateLimitHandler (s : RateLimiterStore) (clientID : String)
    (maxRequests : Int) (refillRate : Int) (now : Int) :
    HandlerOutcome × RateLimiterStore :=
  let ls := s.GetLimiter clientID maxRequests refillRate now
  let ar := ls.1.Allow now
  let s2 := ls.2.setLimiter clientID ar.2
  if !ar.1 then
    let sb :=
      ErrorResponse 429 "RATE_LIMIT_EXCEEDED" "Too many requests. Please try again later."
    (HandlerOutcome.abortWith sb.1 sb.2, s2)
  else
    (HandlerOutcome.next, s2)

/-- The `Allow` algorithm exactly as the specification words it (for the
refinement claim C1): `tokensToAdd = floor(elapsed / refillInterval)`; when
positive, `tokens := min (tokens + tokensToAdd) maxTokens` and
`lastRefillTime := now`; then decrement and answer `true` when the refilled
balance is positive, else answer `false`.  `Int` `/` is Euclidean division,
i.e. `floor` for a nonnegative dividend and positive divisor. -/
def AllowSpecModel (r : RateLimiter) (now : Int) : Bool × RateLimiter :=
  let elapsed := now - r.lastRefillTime
  let tokensToAdd := elapsed / r.refillRate
  let refilled : RateLimiter :=
    if 0 < tokensToAdd then
      { r with tokens := min (r.tokens + tokensToAdd) r.maxTokens
             , lastRefillTime := now }
    else r
  if 0 < refilled.tokens then
    (true, { refilled with tokens := refilled.tokens - 1 })
  else
    (false, refilled)

/-- Results of `n` consecutive `Allow` calls on one limiter, all at time
`now`; each call sees the state the previous call left behind. -/
def RateLimiter.allowCalls : RateLimiter → Int → Nat → List Bool
  | _, _, 0 => []
  | r, now, n + 1 =>
    let br := r.Allow now
    br.1 :: br.2.allowCalls now n

/-- The limiters returned by `n` back-to-back `GetLimiter` calls for one key,
together with the final registry.  `GetLimiter` holds the store mutex for its
whole body, so every concurrent execution is one of these sequences. -/
def RateLimiterStore.getLimiterRun (s : RateLimiterStore) (k : String)
    (mt rr now : Int) : Nat → List RateLimiter × RateLimiterStore
  | 0 => ([], s)
  | n + 1 =>
    let ls := s.GetLimiter k mt rr now
    let rest := ls.2.getLimiterRun k mt rr now n
    (ls.1 :: rest.1, rest.2)

/-- Lemma: `refill` changes neither the capacity nor the refill rate. -/
theorem RateLimiter.refill_frame (r : RateLimiter) (now : Int) :
    (r.refill now).maxTokens = r.maxTokens ∧
    (r.refill now).refillRate = r.refillRate := by
  simp only [RateLimiter.refill]
  split <;> simp

/-- Lemma: `Allow` changes neither the capacity nor the refill rate. -/
theorem RateLimiter.Allow_frame (r : RateLimiter) (now : Int) :
    (r.Allow now).2.maxTokens = r.maxTokens ∧
    (r.Allow now).2.refillRate = r.refillRate := by
  simp only [RateLimiter.Allow, RateLimiter.refill]
  split <;> split <;> (try split) <;> simp

/-- After `refill` the balance stays within `[0, maxTokens]`. -/
theorem RateLimiter.refill_inv (r : RateLimiter) (now : Int)
    (h0 : 0 ≤ r.tokens) (h1 : r.tokens ≤ r.maxTokens) :
    0 ≤ (r.refill now).tokens ∧ (r.refill now).tokens ≤ r.maxTokens := by
  simp only [RateLimiter.refill]
  split
  · constructor <;> simp <;> split <;> omega
  · exact ⟨h0, h1⟩

/-- Lemma: `Allow` preserves the balance invariant `0 ≤ tokens ≤ maxTokens`. -/
theorem RateLimiter.Allow_inv (r : RateLimiter) (now : Int)
    (h0 : 0 ≤ r.tokens) (h1 : r.tokens ≤ r.maxTokens) :
    0 ≤ (r.Allow now).2.tokens ∧
    (r.Allow now).2.tokens ≤ (r.Allow now).2.maxTokens := by
  have hf := r.refill_frame now
  have hi := r.refill_inv now h0 h1
  simp only [RateLimiter.Allow]
  split <;> simp_all
  omega

/-- Lemma: `Allow` either keeps `lastRefillTime` or advances it to `now`. -/
theorem RateLimiter.Allow_lastRefillTime_cases (r : RateLimiter) (now : Int) :
    (r.Allow now).2.lastRefillTime = r.lastRefillTime ∨
    (r.Allow now).2.lastRefillTime = now := by
  simp only [RateLimiter.Allow, RateLimiter.refill]
  split <;> split <;> (try split) <;> simp


/-- C1: one `Allow` call under a positive refill interval and a monotone clock
performs exactly the algorithm the spec states: floor-divide the elapsed time, refill
capped with `min` and advance `lastRefillTime` when at least one token is
added, then consume one token and return `true` iff the refilled balance is
positive.  The model is a total function: no error outcome exists. -/
theorem Allow_eq_AllowSpecModel (r : RateLimiter) (now : Int)
    (hmono : r.lastRefillTime ≤ now) (hrate : 0 < r.refillRate) :
    r.Allow now = AllowSpecModel r now := by
  have hdiv : Int.tdiv (now - r.lastRefillTime) r.refillRate
      = (now - r.lastRefillTime) / r.refillRate :=
    Int.tdiv_eq_ediv (by omega) (by omega)
  simp only [RateLimiter.Allow, RateLimiter.refill, AllowSpecModel, hdiv, min_def]
  split <;> split <;> (try split) <;> (try split) <;>
    simp_all [Prod.ext_iff] <;> omega

/-- C1 witness: a concrete limiter and time satisfying the hypotheses. -/
theorem Allow_eq_AllowSpecModel_witness :
    (⟨2, 5, 10, 0⟩ : RateLimiter).lastRefillTime ≤ 25 ∧
    (0 : Int) < (⟨2, 5, 10, 0⟩ : RateLimiter).refillRate ∧
    (⟨2, 5, 10, 0⟩ : RateLimiter).Allow 25 = AllowSpecModel ⟨2, 5, 10, 0⟩ 25 :=
  ⟨by decide, by decide,
    Allow_eq_AllowSpecModel ⟨2, 5, 10, 0⟩ 25 (by decide) (by decide)⟩

/-- Lemma: `GetLimiter` on a key the registry already holds returns the stored
limiter and leaves the store unchanged, for any argument values. -/
theorem GetLimiter_of_lookup_some (s : RateLimiterStore) (k : String)
    (l : RateLimiter) (h : s.limiters.lookup k = some l) (mt rr now : Int) :
    s.GetLimiter k mt rr now = (l, s) := by
  simp [RateLimiterStore.GetLimiter, h]

/-- Lemma: `GetLimiter` on an unseen key creates the limiter at full capacity with
`lastRefillTime = now` and registers it under the key. -/
theorem GetLimiter_of_lookup_none (s : RateLimiterStore) (k : String)
    (h : s.limiters.lookup k = none) (mt rr now : Int) :
    s.GetLimiter k mt rr now =
      (⟨mt, mt, rr, now⟩,
        { limiters := (k, (⟨mt, mt, rr, now⟩ : RateLimiter)) :: s.limiters }) := by
  simp [RateLimiterStore.GetLimiter, h]

/-- C2: a limiter freshly created by `GetLimiter` for an unseen key with
`maxTokens ≥ 0` satisfies `0 ≤ tokens ≤ maxTokens`, and every completed
`Allow` call preserves that invariant whatever time has elapsed. -/
theorem GetLimiter_Allow_invariant (s : RateLimiterStore) (k : String)
    (mt rr now : Int) (hmt : 0 ≤ mt) (hnew : s.limiters.lookup k = none) :
    (0 ≤ (s.GetLimiter k mt rr now).1.tokens ∧
      (s.GetLimiter k mt rr now).1.tokens
        ≤ (s.GetLimiter k mt rr now).1.maxTokens) ∧
    (∀ (r : RateLimiter) (t : Int),
      0 ≤ r.tokens → r.tokens ≤ r.maxTokens →
        0 ≤ (r.Allow t).2.tokens ∧
        (r.Allow t).2.tokens ≤ (r.Allow t).2.maxTokens) := by
  refine ⟨?_, fun r t h0 h1 => r.Allow_inv t h0 h1⟩
  rw [GetLimiter_of_lookup_none s k hnew mt rr now]
  exact ⟨hmt, le_refl mt⟩

/-- C2 witness: a concrete empty store, key and nonnegative capacity. -/
theorem GetLimiter_Allow_invariant_witness :
    (0 : Int) ≤ 3 ∧
    ({ limiters := [] } : RateLimiterStore).limiters.lookup "a" = none ∧
    (0 ≤ (({ limiters := [] } : RateLimiterStore).GetLimiter "a" 3 10 0).1.tokens ∧
      (({ limiters := [] } : RateLimiterStore).GetLimiter "a" 3 10 0).1.tokens
        ≤ (({ limiters := [] } : RateLimiterStore).GetLimiter "a" 3 10 0).1.maxTokens) ∧
    (∀ (r : RateLimiter) (t : Int),
      0 ≤ r.tokens → r.tokens ≤ r.maxTokens →
        0 ≤ (r.Allow t).2.tokens ∧
        (r.Allow t).2.tokens ≤ (r.Allow t).2.maxTokens) :=
  ⟨by decide, rfl, GetLimiter_Allow_invariant { limiters := [] } "a" 3 10 0 (by decide) rfl⟩

/-- C9: an `Allow` call whose `tokensToAdd` is zero — the elapsed time is
shorter than one refill interval — leaves `lastRefillTime` untouched, so the
sub-interval remainder keeps accumulating across calls. -/
theorem Allow_keeps_lastRefillTime_when_no_refill (r : RateLimiter) (now : Int)
    (hmono : r.lastRefillTime ≤ now) (hrate : 0 < r.refillRate)
    (hshort : now - r.lastRefillTime < r.refillRate) :
    (r.Allow now).2.lastRefillTime = r.lastRefillTime := by
  have hq : Int.tdiv (now - r.lastRefillTime) r.refillRate = 0 := by
    rw [Int.tdiv_eq_ediv (by omega) (by omega)]
    exact Int.ediv_eq_zero_of_lt (by omega) hshort
  simp only [RateLimiter.Allow, RateLimiter.refill, hq]
  norm_num
  split <;> rfl

/-- C9 witness: seven nanoseconds into a ten-nanosecond interval. -/
theorem Allow_keeps_lastRefillTime_when_no_refill_witness :
    (⟨1, 5, 10, 0⟩ : RateLimiter).lastRefillTime ≤ 7 ∧
    (0 : Int) < (⟨1, 5, 10, 0⟩ : RateLimiter).refillRate ∧
    7 - (⟨1, 5, 10, 0⟩ : RateLimiter).lastRefillTime
      < (⟨1, 5, 10, 0⟩ : RateLimiter).refillRate ∧
    ((⟨1, 5, 10, 0⟩ : RateLimiter).Allow 7).2.lastRefillTime
      = (⟨1, 5, 10, 0⟩ : RateLimiter).lastRefillTime :=
  ⟨by decide, by decide, by decide,
    Allow_keeps_lastRefillTime_when_no_refill ⟨1, 5, 10, 0⟩ 7
      (by decide) (by decide) (by decide)⟩

/-- C10: looking up a key already present returns the stored limiter with
state and configuration unchanged and ignores the `maxTokens` and
`refillRate` arguments of the call entirely. -/
theorem GetLimiter_existing_ignores_args (s : RateLimiterStore) (k : String)
    (l : RateLimiter) (h : s.limiters.lookup k = some l) (mt rr now : Int) :
    s.GetLimiter k mt rr now = (l, s) :=
  GetLimiter_of_lookup_some s k l h mt rr now

/-- C10 witness: a stored limiter is returned unchanged even when the lookup
passes a different capacity and refill rate. -/
theorem GetLimiter_existing_ignores_args_witness :
    ({ limiters := [("a", ⟨1, 2, 3, 4⟩)] } : RateLimiterStore).limiters.lookup "a"
      = some ⟨1, 2, 3, 4⟩ ∧
    ({ limiters := [("a", ⟨1, 2, 3, 4⟩)] } : RateLimiterStore).GetLimiter "a" 99 77 55
      = (⟨1, 2, 3, 4⟩, { limiters := [("a", ⟨1, 2, 3, 4⟩)] }) :=
  ⟨by decide,
    GetLimiter_existing_ignores_args { limiters := [("a", ⟨1, 2, 3, 4⟩)] } "a"
      ⟨1, 2, 3, 4⟩ (by decide) 99 77 55⟩

/-- C3 (against the claimed construction-time rejection): the middleware
constructor validates nothing.  `maxRequests = -5` with a one-minute window
is accepted, yielding a configuration with a negative refill rate instead of
a rejection, and `maxRequests = 0` hits a division-by-zero panic while
deriving the refill rate — a runtime failure at construction, not a rejected
configuration. -/
theorem rateLimitMiddlewareConfig_no_validation :
    rateLimitMiddlewareConfig (-5) 60000000000 = some (-5, -12000000000) ∧
    rateLimitMiddlewareConfig 0 60000000000 = none := by
  decide

/-- When no whole refill interval has elapsed, `refill` is the identity. -/
theorem refill_no_op (r : RateLimiter) (now : Int)
    (hq : Int.tdiv (now - r.lastRefillTime) r.refillRate ≤ 0) :
    r.refill now = r := by
  simp only [RateLimiter.refill]
  rw [if_neg (by omega)]

/-- When no whole refill interval has elapsed, `Allow` is a pure
decrement-if-positive. -/
theorem Allow_no_refill (r : RateLimiter) (now : Int)
    (hq : Int.tdiv (now - r.lastRefillTime) r.refillRate ≤ 0) :
    r.Allow now =
      if 0 < r.tokens then (true, { r with tokens := r.tokens - 1 })
      else (false, r) := by
  simp only [RateLimiter.Allow, refill_no_op r now hq, gt_iff_lt]

/-- Sub-interval elapsed time forces `tokensToAdd = 0`. -/
theorem tokensToAdd_eq_zero (r : RateLimiter) (now : Int)
    (hmono : r.lastRefillTime ≤ now) (hrate : 0 < r.refillRate)
    (hshort : now - r.lastRefillTime < r.refillRate) :
    Int.tdiv (now - r.lastRefillTime) r.refillRate = 0 := by
  rw [Int.tdiv_eq_ediv (by omega) (by omega)]
  exact Int.ediv_eq_zero_of_lt (by omega) hshort

/-- With balance `t` and elapsed time below one interval throughout, `t + 1`
calls answer `true` exactly `t` times and then `false`. -/
theorem allowCalls_no_elapsed (t : Nat) (r : RateLimiter) (now : Int)
    (htok : r.tokens = (t : Int)) (hmono : r.lastRefillTime ≤ now)
    (hrate : 0 < r.refillRate) (hshort : now - r.lastRefillTime < r.refillRate) :
    r.allowCalls now (t + 1) = List.replicate t true ++ [false] := by
  induction t generalizing r with
  | zero =>
    simp only [RateLimiter.allowCalls,
      Allow_no_refill r now (by rw [tokensToAdd_eq_zero r now hmono hrate hshort])]
    rw [if_neg (by omega)]
    simp [RateLimiter.allowCalls]
  | succ t ih =>
    simp only [RateLimiter.allowCalls,
      Allow_no_refill r now (by rw [tokensToAdd_eq_zero r now hmono hrate hshort])]
    rw [if_pos (by omega)]
    simp only [List.replicate_succ, List.cons_append, List.cons.injEq, true_and]
    exact ih { r with tokens := r.tokens - 1 }
      (by show r.tokens - 1 = (t : Int); omega) hmono hrate hshort

/-- C4: a limiter freshly created by `GetLimiter` with capacity `N ≥ 1`
answers, when no refill interval elapses, `true` for exactly the first `N`
calls and `false` for the `(N+1)`-th. -/
theorem fresh_limiter_first_N_allowed (s : RateLimiterStore) (k : String)
    (N : Nat) (_hN : 1 ≤ N) (rr now now2 : Int) (hrr : 0 < rr)
    (h1 : now ≤ now2) (h2 : now2 - now < rr)
    (hnew : s.limiters.lookup k = none) :
    ((s.GetLimiter k (N : Int) rr now).1).allowCalls now2 (N + 1)
      = List.replicate N true ++ [false] := by
  rw [GetLimiter_of_lookup_none s k hnew (N : Int) rr now]
  exact allowCalls_no_elapsed N ⟨N, N, rr, now⟩ now2 rfl h1 hrr h2

/-- C4 witness: capacity 3, created at time 0 and called at time 5 inside a
ten-nanosecond interval, gives `[true, true, true, false]`. -/
theorem fresh_limiter_first_N_allowed_witness :
    1 ≤ 3 ∧ (0 : Int) < 10 ∧ (0 : Int) ≤ 5 ∧ (5 : Int) - 0 < 10 ∧
    ({ limiters := [] } : RateLimiterStore).limiters.lookup "a" = none ∧
    ((({ limiters := [] } : RateLimiterStore).GetLimiter "a" 3 10 0).1).allowCalls 5 4
      = [true, true, true, false] :=
  ⟨by decide, by decide, by decide, by decide, rfl,
    fresh_limiter_first_N_allowed { limiters := [] } "a" 3 (by decide) 10 0 5
      (by decide) (by decide) (by decide) rfl⟩

/-- C7: when at least one full refill interval separates two `Allow` calls
with nothing consumed in between, the refill phase of the second call
observes at least one token more than the first call left (capped at the
capacity) and never more than the capacity. -/
theorem refill_after_full_interval (r : RateLimiter) (now1 now2 : Int)
    (hrate : 0 < r.refillRate) (hmono : r.lastRefillTime ≤ now1)
    (hgap : now1 + r.refillRate ≤ now2) :
    min ((r.Allow now1).2.tokens + 1) (r.Allow now1).2.maxTokens
      ≤ ((r.Allow now1).2.refill now2).tokens ∧
    ((r.Allow now1).2.refill now2).tokens ≤ (r.Allow now1).2.maxTokens := by
  have hfr := r.Allow_frame now1
  have hlt : (r.Allow now1).2.lastRefillTime ≤ now1 := by
    rcases r.Allow_lastRefillTime_cases now1 with h | h <;> omega
  set s1 := (r.Allow now1).2 with hs1
  have helap : s1.refillRate ≤ now2 - s1.lastRefillTime := by omega
  have hq : 1 ≤ Int.tdiv (now2 - s1.lastRefillTime) s1.refillRate := by
    rw [Int.tdiv_eq_ediv (by omega) (by omega)]
    rw [Int.le_ediv_iff_mul_le (by omega)]
    omega
  simp only [RateLimiter.refill]
  rw [if_pos (by omega)]
  constructor <;> simp <;> split <;> omega

/-- C7 witness: two tokens left, interval 10, gap 11. -/
theorem refill_after_full_interval_witness :
    (0 : Int) < (⟨2, 5, 10, 0⟩ : RateLimiter).refillRate ∧
    (⟨2, 5, 10, 0⟩ : RateLimiter).lastRefillTime ≤ 5 ∧
    5 + (⟨2, 5, 10, 0⟩ : RateLimiter).refillRate ≤ 16 ∧
    (min (((⟨2, 5, 10, 0⟩ : RateLimiter).Allow 5).2.tokens + 1)
        ((⟨2, 5, 10, 0⟩ : RateLimiter).Allow 5).2.maxTokens
      ≤ (((⟨2, 5, 10, 0⟩ : RateLimiter).Allow 5).2.refill 16).tokens ∧
    (((⟨2, 5, 10, 0⟩ : RateLimiter).Allow 5).2.refill 16).tokens
      ≤ ((⟨2, 5, 10, 0⟩ : RateLimiter).Allow 5).2.maxTokens) :=
  ⟨by decide, by decide, by decide,
    refill_after_full_interval ⟨2, 5, 10, 0⟩ 5 16 (by decide) (by decide) (by decide)⟩

/-- C5: one cleanup sweep keeps a registry entry exactly when its idle time
`now - lastRefillTime` does not exceed the 30-minute threshold (so it removes
the entry exactly when it does), and a `GetLimiter` call for any key absent
after the sweep creates a fresh limiter holding `maxTokens` tokens. -/
theorem cleanup_evicts_idle_and_recreates_full (s : RateLimiterStore) (now : Int) :
    (∀ (k : String) (l : RateLimiter),
      (k, l) ∈ (s.cleanup now).limiters ↔
        ((k, l) ∈ s.limiters ∧ ¬(now - l.lastRefillTime > idleThreshold))) ∧
    (∀ (k : String) (mt rr now2 : Int),
      (s.cleanup now).limiters.lookup k = none →
        ((s.cleanup now).GetLimiter k mt rr now2).1.tokens = mt ∧
        ((s.cleanup now).GetLimiter k mt rr now2).1.maxTokens = mt) := by
  constructor
  · intro k l
    simp [RateLimiterStore.cleanup, List.mem_filter]
  · intro k mt rr now2 h
    rw [GetLimiter_of_lookup_none _ k h mt rr now2]
    exact ⟨rfl, rfl⟩

/-- C5 witness: a store with one entry idle for 31 minutes and one idle for
29 minutes, swept at `now = 31` minutes. -/
theorem cleanup_evicts_idle_and_recreates_full_witness :
    (∀ (k : String) (l : RateLimiter),
      (k, l) ∈ (({ limiters := [("old", ⟨1, 3, 10, 0⟩),
                    ("fresh", ⟨1, 3, 10, 120000000000⟩)] } :
          RateLimiterStore).cleanup 1860000000000).limiters ↔
        ((k, l) ∈ ({ limiters := [("old", ⟨1, 3, 10, 0⟩),
                    ("fresh", ⟨1, 3, 10, 120000000000⟩)] } :
            RateLimiterStore).limiters ∧
          ¬(1860000000000 - l.lastRefillTime > idleThreshold))) ∧
    (∀ (k : String) (mt rr now2 : Int),
      (({ limiters := [("old", ⟨1, 3, 10, 0⟩),
            ("fresh", ⟨1, 3, 10, 120000000000⟩)] } :
          RateLimiterStore).cleanup 1860000000000).limiters.lookup k = none →
        ((({ limiters := [("old", ⟨1, 3, 10, 0⟩),
              ("fresh", ⟨1, 3, 10, 120000000000⟩)] } :
            RateLimiterStore).cleanup 1860000000000).GetLimiter k mt rr now2).1.tokens = mt ∧
        ((({ limiters := [("old", ⟨1, 3, 10, 0⟩),
              ("fresh", ⟨1, 3, 10, 120000000000⟩)] } :
            RateLimiterStore).cleanup 1860000000000).GetLimiter k mt rr now2).1.maxTokens = mt) :=
  cleanup_evicts_idle_and_recreates_full
    { limiters := [("old", ⟨1, 3, 10, 0⟩), ("fresh", ⟨1, 3, 10, 120000000000⟩)] }
    1860000000000

/-- C6: when `Allow` denies, the middleware body aborts the pipeline with
HTTP status 429 and a JSON body whose error object carries the code
`RATE_LIMIT_EXCEEDED` and a non-empty human-readable message; when `Allow`
permits, it passes control to the next stage. -/
theorem rateLimitHandler_outcome (s : RateLimiterStore) (k : String)
    (mt rr now : Int) :
    (((s.GetLimiter k mt rr now).1.Allow now).1 = false →
      ∃ e : ErrorInfo, e.code = "RATE_LIMIT_EXCEEDED" ∧ e.message ≠ "" ∧
        (rateLimitHandler s k mt rr now).1
          = HandlerOutcome.abortWith 429
              { success := false, data := none, error := some e }) ∧
    (((s.GetLimiter k mt rr now).1.Allow now).1 = true →
      (rateLimitHandler s k mt rr now).1 = HandlerOutcome.next) := by
  constructor
  · intro h
    refine ⟨⟨"RATE_LIMIT_EXCEEDED",
      "Too many requests. Please try again later.", ""⟩, rfl, by decide, ?_⟩
    simp [rateLimitHandler, ErrorResponse, h]
  · intro h
    simp [rateLimitHandler, h]

/-- C6 witness: an exhausted limiter produces the 429 outcome and a full one
passes control on. -/
theorem rateLimitHandler_outcome_witness :
    ((({ limiters := [("a", ⟨0, 3, 10, 0⟩)] } :
          RateLimiterStore).GetLimiter "a" 3 10 5).1.Allow 5).1 = false ∧
    (∃ e : ErrorInfo, e.code = "RATE_LIMIT_EXCEEDED" ∧ e.message ≠ "" ∧
      (rateLimitHandler { limiters := [("a", ⟨0, 3, 10, 0⟩)] } "a" 3 10 5).1
        = HandlerOutcome.abortWith 429
            { success := false, data := none, error := some e }) :=
  ⟨by decide,
    (rateLimitHandler_outcome { limiters := [("a", ⟨0, 3, 10, 0⟩)] } "a" 3 10 5).1
      (by decide)⟩

/-- Once the key is present, a run of lookups returns the stored limiter every
time and never touches the registry. -/
theorem getLimiterRun_of_lookup_some (s : RateLimiterStore) (k : String)
    (l : RateLimiter) (h : s.limiters.lookup k = some l) (mt rr now : Int)
    (n : Nat) :
    s.getLimiterRun k mt rr now n = (List.replicate n l, s) := by
  induction n with
  | zero => simp [RateLimiterStore.getLimiterRun]
  | succ n ih =>
    simp [RateLimiterStore.getLimiterRun, GetLimiter_of_lookup_some s k l h mt rr now,
      ih, List.replicate_succ]

/-- A key that `lookup` misses occurs in no entry of the registry list. -/
theorem countP_eq_zero_of_lookup_none (l : List (String × RateLimiter))
    (k : String) (h : l.lookup k = none) :
    l.countP (fun kl => kl.1 == k) = 0 := by
  induction l with
  | nil => rfl
  | cons p l ih =>
    obtain ⟨a, b⟩ := p
    by_cases hk : k = a
    · subst hk
      simp [List.lookup] at h
    · have hne : (k == a) = false := by simp [hk]
      simp only [List.lookup, hne] at h
      have hne2 : (a == k) = false := by simp [Ne.symm hk]
      simp only [List.countP_cons, hne2]
      simp [ih h]

/-- With balance `t` and elapsed time below one interval throughout, `m`
calls succeed exactly `min m t` times. -/
theorem allowCalls_count_true (m t : Nat) (r : RateLimiter) (now : Int)
    (htok : r.tokens = (t : Int)) (hmono : r.lastRefillTime ≤ now)
    (hrate : 0 < r.refillRate) (hshort : now - r.lastRefillTime < r.refillRate) :
    (r.allowCalls now m).count true = min m t := by
  induction m generalizing r t with
  | zero => simp [RateLimiter.allowCalls]
  | succ m ih =>
    simp only [RateLimiter.allowCalls,
      Allow_no_refill r now (by rw [tokensToAdd_eq_zero r now hmono hrate hshort])]
    cases t with
    | zero =>
      rw [if_neg (by omega)]
      simp only [List.count_cons]
      rw [ih 0 r htok hmono hrate hshort]
      simp
    | succ t =>
      rw [if_pos (by omega)]
      simp only [List.count_cons]
      rw [ih t { r with tokens := r.tokens - 1 }
        (by show r.tokens - 1 = (t : Int); omega) hmono hrate hshort]
      simp [Nat.succ_min_succ]

/-- C8: any serialized execution of concurrent `GetLimiter` calls for one
unseen key returns the single freshly created limiter to every caller and
leaves exactly one registry entry for the key; and `m` serialized `Allow`
calls on that limiter with capacity `N` succeed exactly `min m N` times, so
`N` concurrent callers get exactly `N` successes with no double-booking. -/
theorem concurrent_single_instance_and_capacity (s : RateLimiterStore)
    (k : String) (N : Nat) (rr now : Int) (hrr : 0 < rr)
    (hnew : s.limiters.lookup k = none) (n m : Nat) (hn : 1 ≤ n) :
    (∀ l ∈ (s.getLimiterRun k (N : Int) rr now n).1,
        l = (s.GetLimiter k (N : Int) rr now).1) ∧
    ((s.getLimiterRun k (N : Int) rr now n).2.limiters.countP
        (fun kl => kl.1 == k) = 1) ∧
    (((s.GetLimiter k (N : Int) rr now).1.allowCalls now m).count true
        = min m N) := by
  obtain ⟨n, rfl⟩ : ∃ n', n = n' + 1 := ⟨n - 1, by omega⟩
  have hget := GetLimiter_of_lookup_none s k hnew (N : Int) rr now
  have hlook : ((s.GetLimiter k (N : Int) rr now).2).limiters.lookup k
      = some (⟨N, N, rr, now⟩ : RateLimiter) := by
    rw [hget]
    simp [List.lookup_cons]
  refine ⟨?_, ?_, ?_⟩
  · intro l hl
    simp only [RateLimiterStore.getLimiterRun] at hl
    rw [getLimiterRun_of_lookup_some _ k _ hlook (N : Int) rr now n] at hl
    simp only [List.mem_cons, List.mem_replicate] at hl
    rcases hl with h | ⟨-, h⟩
    · exact h
    · rw [h, hget]
  · simp only [RateLimiterStore.getLimiterRun]
    rw [getLimiterRun_of_lookup_some _ k _ hlook (N : Int) rr now n]
    simp only [hget, List.countP_cons]
    simp [countP_eq_zero_of_lookup_none s.limiters k hnew]
  · rw [hget]
    exact allowCalls_count_true m N ⟨N, N, rr, now⟩ now rfl (le_refl now) hrr
      (by simpa using hrr)

/-- C8 witness: three lookups and five `Allow` calls against capacity two. -/
theorem concurrent_single_instance_and_capacity_witness :
    (0 : Int) < 10 ∧
    ({ limiters := [] } : RateLimiterStore).limiters.lookup "a" = none ∧
    1 ≤ 3 ∧
    ((∀ l ∈ (({ limiters := [] } : RateLimiterStore).getLimiterRun "a" 2 10 0 3).1,
        l = (({ limiters := [] } : RateLimiterStore).GetLimiter "a" 2 10 0).1) ∧
    ((({ limiters := [] } : RateLimiterStore).getLimiterRun "a" 2 10 0 3).2.limiters.countP
        (fun kl => kl.1 == "a") = 1) ∧
    (((({ limiters := [] } : RateLimiterStore).GetLimiter "a" 2 10 0).1.allowCalls 0 5).count true
        = min 5 2)) :=
  ⟨by decide, rfl, by decide,
    concurrent_single_instance_and_capacity { limiters := [] } "a" 2 10 0
      (by decide) rfl 3 5 (by decide)⟩

end GoModuleHelper
